import Mathlib

/-!
Shallow embedding of the mega cross-venue swap orchestrator (Go).

Decimal values (`shopspring/decimal`, arbitrary-precision decimal) are
modelled as rationals `ℚ`; `Add`/`Mul`/comparisons on decimals are exact and
correspond to the rational operations, and `Div` is modelled as exact
rational division.

The embedded pieces:
  * `OrderStatus`, `Order` — order domain models.
  * VWAP price walkers — `calculateOmpfinexPrice` and `calculateWallexPrice`
    (market usecase) in both shipped variants.
  * `GetBestExchangePriceByVolume` — the best-price router.
  * The five periodic worker functions of the order usecase
    (`FetchPendingOrders`, `FetchSuccessDebitOrders`,
    `FetchMarketUserOrderSuccessOrders`, `FetchFailedMarketUserOrderOrders`,
    `FetchReturnUserOrders`) as a state-transition model `workerTick`,
    with external-call outcomes supplied by an environment `Env`.
  * The cron-lock handlers installed by `NewCronService`, as `handleWorker`.
  * The GORM repository update `ChangeStatusByIds` with the
    zero-value-skipping semantics of `Updates` on a struct.
-/

namespace Mega

/-- Order lifecycle statuses, the OrderStatus constants of the order domain. -/
inductive OrderStatus where
  | pending
  | userDebitInProgress
  | userDebitSuccess
  | marketUserOrderInProgress
  | marketUserOrderSuccess
  | marketUserOrderFailed
  | failedUserDebit
  | refundUserOrder
  | refundUserOrderInProgress
  | refundUserOrderSuccess
  | refundUserOrderFailed
  | treasuryCreditInProgress
  | completed
  deriving DecidableEq, Repr

/-- String value of each status constant, as stored in the database. -/
def statusString : OrderStatus → String
  | .pending => "PENDING"
  | .userDebitInProgress => "USER_DEBIT_IN_PROGRESS"
  | .userDebitSuccess => "USER_DEBIT_SUCCESS"
  | .marketUserOrderInProgress => "MARKET_USER_ORDER_IN_PROGRESS"
  | .marketUserOrderSuccess => "MARKET_USER_ORDER_SUCCESS"
  | .marketUserOrderFailed => "MARKET_USER_ORDER_FAILED"
  | .failedUserDebit => "FAILED_USER_DEBIT"
  | .refundUserOrder => "REFUND_USER_ORDER"
  | .refundUserOrderInProgress => "REFUND_USER_ORDER_IN_PROGRESS"
  | .refundUserOrderSuccess => "REFUND_USER_ORDER_SUCCESS"
  | .refundUserOrderFailed => "REFUND_USER_ORDER_FAILED"
  | .treasuryCreditInProgress => "TREASURY_CREDIT_IN_PROGRESS"
  | .completed => "COMPLETED"

/-- Domain order (order domain `Order`), restricted to the fields the worker
logic reads.  Addresses and symbols are strings, decimals are `ℚ`. -/
structure Order where
  id : Nat
  status : OrderStatus
  volume : ℚ
  price : ℚ
  slipagePercentage : ℚ
  isBuy : Bool
  userAddress : String
  destinationAddress : Option String
  sourceTokenSymbol : String
  destinationTokenSymbol : String
  marketID : Nat
  megaMarketID : Nat
  deriving DecidableEq, Repr

/-- Venue market row (market domain `Market`), fields used by the router. -/
structure Market where
  id : Nat
  exchangeMarketIdentifier : String
  exchangeName : String
  megaMarketID : Nat
  deriving DecidableEq, Repr

/-- Logical market (market domain `MegaMarket`), fields used by SubmitOrder
and the router. -/
structure MegaMarket where
  id : Nat
  sourceTokenSymbol : String
  destinationTokenSymbol : String
  slipagePercentage : ℚ
  deriving DecidableEq, Repr

/-- Mined transaction receipt (go-ethereum `types.Receipt`); only the status
word matters to the engine, and status 1 means success. -/
structure Receipt where
  status : Nat
  deriving DecidableEq, Repr

/-- Outcome of submitting an on-chain transaction and awaiting its receipt:
either the dry-run/send/wait path fails before a receipt exists, or the
transaction is mined with some receipt status. -/
inductive ChainResult where
  | failedBeforeReceipt
  | mined (status : Nat)
  deriving DecidableEq, Repr

/-- EthereumClient.ExecuteTradeWithPermit (main.go): returns an error if the
call, send or wait fails with no receipt; once mined, it returns the
receipt, pairing it with an error exactly when the receipt status is not 1.
`Except.error` carries the receipt the Go caller still receives alongside
the error value. -/
def ExecuteTradeWithPermit (r : ChainResult) : Except (Option Receipt) Receipt :=
  match r with
  | .failedBeforeReceipt => .error none
  | .mined st => if st = 1 then .ok ⟨st⟩ else .error (some ⟨st⟩)

/-- Final status written for one order by the per-order goroutine of
FetchPendingOrders.  On error it writes FAILED_USER_DEBIT (when the error
came with no receipt, the subsequent receipt-status dereference panics, but
only after the write); a receipt with status 1 then overwrites with
USER_DEBIT_SUCCESS; with no write at all the batch status stays. -/
def fetchPendingTask (r : ChainResult) : OrderStatus :=
  match ExecuteTradeWithPermit r with
  | .error none => .failedUserDebit
  | .error (some rec) => if rec.status = 1 then .userDebitSuccess else .failedUserDebit
  | .ok rec => if rec.status = 1 then .userDebitSuccess else .userDebitInProgress

/-- Final status written by the FetchSuccessDebitOrders goroutine: a
PlaceMarketOrder error writes MARKET_USER_ORDER_FAILED; a non-empty exchange
order id writes MARKET_USER_ORDER_SUCCESS. -/
def fetchSuccessDebitTask (r : Except Unit String) : OrderStatus :=
  match r with
  | .error _ => .marketUserOrderFailed
  | .ok exchangeOrderId =>
      if exchangeOrderId = "" then .marketUserOrderInProgress else .marketUserOrderSuccess

/-- Final status written by the FetchMarketUserOrderSuccessOrders goroutine:
a WithdrawTreasury error writes REFUND_USER_ORDER (then panics dereferencing
the nil receipt, after the write); a receipt with status 1 writes COMPLETED;
a mined receipt with another status writes nothing. -/
def fetchMarketSuccessTask (r : Option Receipt) : OrderStatus :=
  match r with
  | none => .refundUserOrder
  | some rec => if rec.status = 1 then .completed else .treasuryCreditInProgress

/-- Final status written by the FetchFailedMarketUserOrderOrders goroutine:
a router error returns without writing; with a re-quoted price it writes
REFUND_USER_ORDER when the re-quote exceeds
`order.Price + order.Price * order.SlipagePercentage`, else
USER_DEBIT_SUCCESS (retry the hedge). -/
def fetchMarketFailedTask (quote : Option ℚ) (o : Order) : OrderStatus :=
  match quote with
  | none => .marketUserOrderInProgress
  | some price =>
      if price > o.price + o.price * o.slipagePercentage then .refundUserOrder
      else .userDebitSuccess

/-- Final status written by the FetchReturnUserOrders goroutine: a
WithdrawTreasury error rewrites REFUND_USER_ORDER (retry; then panics on the
nil receipt, after the write); a receipt with status 1 writes
REFUND_USER_ORDER_SUCCESS. -/
def fetchReturnUserTask (r : Option Receipt) : OrderStatus :=
  match r with
  | none => .refundUserOrder
  | some rec => if rec.status = 1 then .refundUserOrderSuccess else .refundUserOrderInProgress

/-- Parameters of an EthereumClient.WithdrawTreasury call. -/
structure WithdrawTreasuryParams where
  recipientAddress : String
  amount : ℚ
  tokenSymbol : String
  deriving DecidableEq, Repr

/-- Parameters passed to WithdrawTreasury by the
FetchMarketUserOrderSuccessOrders goroutine: the recipient is the
unconditional dereference of order.DestinationAddress (`none` models the
nil-pointer panic, in which case no call is made), the amount is
order.Price, the token is order.DestinationTokenSymbol. -/
def creditParams (o : Order) : Option WithdrawTreasuryParams :=
  o.destinationAddress.map (fun addr => ⟨addr, o.price, o.destinationTokenSymbol⟩)

/-- Parameters passed to WithdrawTreasury by the FetchReturnUserOrders
goroutine: volume of the source token back to the user address. -/
def refundParams (o : Order) : WithdrawTreasuryParams :=
  ⟨o.userAddress, o.volume, o.sourceTokenSymbol⟩

/-! The VWAP depth walkers of the market usecase. -/

/-- One raw level of the OMPFinex depth response: a list of string cells,
each modelled by its decimal parse result (`none` is a parse failure). -/
abbrev OmpLevel := List (Option ℚ)

/-- OMPFinex order book: asks ascending, bids descending, raw levels. -/
structure OmpOrderBook where
  asks : List OmpLevel
  bids : List OmpLevel

/-- Level walk of calculateOmpfinexPrice: skip levels that do not have
exactly two cells, fail to parse, or have non-positive quantity; when a
level covers the remaining volume, return the weighted average price;
otherwise consume the whole level. -/
def ompfinexWalk (volume : ℚ) : List OmpLevel → ℚ → ℚ → Except String ℚ
  | [], _, _ => .error "not enough volume in order book"
  | level :: rest, totalVolume, totalCost =>
    match level with
    | [some price, some availVol] =>
        if availVol ≤ 0 then ompfinexWalk volume rest totalVolume totalCost
        else if volume ≤ totalVolume + availVol then
          .ok ((totalCost + price * (volume - totalVolume)) / volume)
        else ompfinexWalk volume rest (totalVolume + availVol) (totalCost + price * availVol)
    | _ => ompfinexWalk volume rest totalVolume totalCost

/-- calculateOmpfinexPrice of the market usecase: reject non-positive
volume, then walk the asks for a buy and the bids for a sell. -/
def calculateOmpfinexPrice (depth : OmpOrderBook) (volume : ℚ) (isBuy : Bool) :
    Except String ℚ :=
  if volume ≤ 0 then .error "volume must be positive"
  else ompfinexWalk volume (if isBuy then depth.asks else depth.bids) 0 0

/-- One level of the Wallex depth response, already decimal-typed. -/
structure WallexLevel where
  price : ℚ
  quantity : ℚ
  deriving DecidableEq, Repr

/-- Wallex order book: asks ascending, bids descending. -/
structure WallexOrderBook where
  asks : List WallexLevel
  bids : List WallexLevel

/-- Level walk of calculateWallexPrice: skip non-positive levels, consume
min(remaining volume, level quantity) at each level, and return the
weighted average price once the target volume is reached. -/
def wallexWalk (volume : ℚ) : List WallexLevel → ℚ → ℚ → Except String ℚ
  | [], _, _ => .error "not enough liquidity in order book"
  | level :: rest, totalVolume, totalCost =>
    if level.price ≤ 0 ∨ level.quantity ≤ 0 then wallexWalk volume rest totalVolume totalCost
    else
      let consumed := min (volume - totalVolume) level.quantity
      let totalCost2 := totalCost + level.price * consumed
      let totalVolume2 := totalVolume + consumed
      if volume ≤ totalVolume2 then .ok (totalCost2 / volume)
      else wallexWalk volume rest totalVolume2 totalCost2

/-- calculateWallexPrice of the market usecase (the variant whose buy and
sell branches both walk by base volume). -/
def calculateWallexPrice (depth : WallexOrderBook) (volume : ℚ) (isBuy : Bool) :
    Except String ℚ :=
  if volume ≤ 0 then .error "volume must be positive"
  else wallexWalk volume (if isBuy then depth.asks else depth.bids) 0 0

/-- Buy-side level walk of the calculateWallexPrice variant in
market/usecase/service.go: at each level it takes
`remaining := volume - totalCost` and `available := quantity * price`,
consumes `min remaining available` of COST, accumulates
`totalVolume += consumed / price`, stops when the accumulated COST reaches
`volume`, and returns `totalCost / totalVolume`. -/
def wallexSvcBuyWalk (volume : ℚ) : List WallexLevel → ℚ → ℚ → Except String ℚ
  | [], _, _ => .error "not enough liquidity in order book"
  | level :: rest, totalVolume, totalCost =>
    if level.price ≤ 0 ∨ level.quantity ≤ 0 then
      wallexSvcBuyWalk volume rest totalVolume totalCost
    else
      let remaining := volume - totalCost
      let available := level.quantity * level.price
      let consumed := min remaining available
      let totalCost2 := totalCost + consumed
      let totalVolume2 := totalVolume + consumed / level.price
      if volume ≤ totalCost2 then .ok (totalCost2 / totalVolume2)
      else wallexSvcBuyWalk volume rest totalVolume2 totalCost2

/-- calculateWallexPrice as in market/usecase/service.go: the sell branch
walks bids by base volume, the buy branch uses the cost-target walk. -/
def calculateWallexPriceSvc (depth : WallexOrderBook) (volume : ℚ) (isBuy : Bool) :
    Except String ℚ :=
  if volume ≤ 0 then .error "volume must be positive"
  else if isBuy then wallexSvcBuyWalk volume depth.asks 0 0
  else wallexWalk volume depth.bids 0 0

/-- Modelled from the spec (claim wording, for comparison with the source
walkers): walk the levels in book order, skipping malformed or non-positive
levels, consume `min(remainingVolume, levelQty)` at each level, accumulate
`cost += levelPrice * consumed`, stop when the accumulated quantity reaches
the requested volume and return `cost / volume`; `none` when total depth is
below the requested volume. -/
def vwapSpecWalk (volume : ℚ) : List (ℚ × ℚ) → ℚ → ℚ → Option ℚ
  | [], _, _ => none
  | l :: rest, acc, cost =>
    if l.1 ≤ 0 ∨ l.2 ≤ 0 then vwapSpecWalk volume rest acc cost
    else
      let consumed := min (volume - acc) l.2
      let acc2 := acc + consumed
      let cost2 := cost + l.1 * consumed
      if volume ≤ acc2 then some (cost2 / volume) else vwapSpecWalk volume rest acc2 cost2

/-- Modelled from the spec: the volume-weighted average price required to
fill `volume` against the given `(price, quantity)` levels. -/
def vwapSpec (levels : List (ℚ × ℚ)) (volume : ℚ) : Option ℚ :=
  vwapSpecWalk volume levels 0 0

/-- Failing order book for the service.go wallex buy branch. -/
def c3Book : WallexOrderBook := ⟨[⟨1, 1⟩, ⟨3, 1⟩], []⟩

/-! The best-price router. -/

/-- Per-venue outcomes appended to `results` in observation order inside
GetBestExchangePriceByVolume: a quote `(price, market)` per venue whose
depth fetch and price computation succeeded. -/
def routeResults (quotes : List (Market × Option ℚ)) : List (ℚ × Market) :=
  quotes.filterMap (fun q => q.2.map (fun price => (price, q.1)))

/-- One step of the lowest-price fold: replace the running best only on a
strictly lower price, so the first observed price wins ties. -/
def bestStep (b x : ℚ × Market) : ℚ × Market := if x.1 < b.1 then x else b

/-- The selection loop of GetBestExchangePriceByVolume: `none` on an empty
result set, otherwise the fold of `bestStep` seeded with the first result. -/
def selectBest : List (ℚ × Market) → Option (ℚ × Market)
  | [] => none
  | r :: rs => some (rs.foldl bestStep r)

/-- GetBestExchangePriceByVolume of the market usecase, given the active
mega-market lookup result and the per-venue quote outcomes (in observation
order; `none` is a venue whose fetch or price computation failed and was
logged and skipped). -/
def GetBestExchangePriceByVolume (mega : Option MegaMarket)
    (quotes : List (Market × Option ℚ)) : Except String (ℚ × Market × MegaMarket) :=
  match mega with
  | none => .error "no active mega market found for id"
  | some mm =>
      match selectBest (routeResults quotes) with
      | none => .error "could not determine best price"
      | some best => .ok (best.1, best.2, mm)

/-! The worker scheduler. -/

/-- The five periodic workers wired by NewCronService. -/
inductive WorkerKind where
  | pending
  | successDebit
  | marketSuccess
  | marketFailed
  | refundUser
  deriving DecidableEq, Repr

/-- Source status each worker fetches (GetOrdersByStatus argument). -/
def sourceStatus : WorkerKind → OrderStatus
  | .pending => .pending
  | .successDebit => .userDebitSuccess
  | .marketSuccess => .marketUserOrderSuccess
  | .marketFailed => .marketUserOrderFailed
  | .refundUser => .refundUserOrder

/-- Status each worker batch-writes to the fetched ids before dispatching
the per-order goroutines (FetchFailedMarketUserOrderOrders reuses
MARKET_USER_ORDER_IN_PROGRESS). -/
def inProgressStatus : WorkerKind → OrderStatus
  | .pending => .userDebitInProgress
  | .successDebit => .marketUserOrderInProgress
  | .marketSuccess => .treasuryCreditInProgress
  | .marketFailed => .marketUserOrderInProgress
  | .refundUser => .refundUserOrderInProgress

/-- Outcomes of the external calls each per-order goroutine makes, keyed by
order id. -/
structure Env where
  debit : Nat → ChainResult
  place : Nat → Except Unit String
  credit : Nat → Option Receipt
  quote : Nat → Option ℚ
  refund : Nat → Option Receipt

/-- Final status the per-order goroutine of worker `w` writes for order `o`
under outcomes `env`. -/
def taskStatus (w : WorkerKind) (env : Env) (o : Order) : OrderStatus :=
  match w with
  | .pending => fetchPendingTask (env.debit o.id)
  | .successDebit => fetchSuccessDebitTask (env.place o.id)
  | .marketSuccess => fetchMarketSuccessTask (env.credit o.id)
  | .marketFailed => fetchMarketFailedTask (env.quote o.id) o
  | .refundUser => fetchReturnUserTask (env.refund o.id)

/-- OrderRepo.GetOrdersByStatus: all orders whose status equals `st`. -/
def fetchByStatus (st : OrderStatus) (store : List Order) : List Order :=
  store.filter (fun o => o.status = st)

/-- Domain-level view of OrderRepo.ChangeStatusByIds: set the status of the
rows whose id is in `ids`. -/
def changeStatusByIds (ids : List Nat) (st : OrderStatus) (store : List Order) :
    List Order :=
  store.map (fun o => if o.id ∈ ids then { o with status := st } else o)

/-- Run the dispatched per-order goroutines of one tick: each writes its
final status for its own order id. -/
def applyTasks (w : WorkerKind) (env : Env) (fetched : List Order)
    (store : List Order) : List Order :=
  fetched.foldl (fun acc o => changeStatusByIds [o.id] (taskStatus w env o) acc) store

/-- One full worker tick (a Fetch* function of the order usecase, with all
its goroutines run to completion): fetch the source status, batch-write the
in-progress status to the fetched ids, then run each per-order task. -/
def workerTick (w : WorkerKind) (env : Env) (store : List Order) : List Order :=
  let fetched := fetchByStatus (sourceStatus w) store
  let store1 := changeStatusByIds (fetched.map Order.id) (inProgressStatus w) store
  applyTasks w env fetched store1

/-- Statuses from which no further transition occurs. -/
def terminalStatuses : List OrderStatus :=
  [.completed, .failedUserDebit, .refundUserOrderSuccess]

/-- The statuses some worker fetches. -/
def workerSourceStatuses : List OrderStatus :=
  [.pending, .userDebitSuccess, .marketUserOrderSuccess, .marketUserOrderFailed,
    .refundUserOrder]

/-! The cron lock protocol. -/

/-- Fixed per-worker cron lock UUIDs (the uuid.MustParse constants of the
order usecase cron service). -/
def cronId : WorkerKind → String
  | .pending => "62444ba0-b2dd-4b8f-afee-c04f7b2ab6e0"
  | .successDebit => "62444ba0-b2dd-4b8f-afee-c04f7b2ab6e1"
  | .refundUser => "62444ba0-b2dd-4b8f-afee-c04f7b2ab6e2"
  | .marketSuccess => "62444ba0-b2dd-4b8f-afee-c04f7b2ab6e3"
  | .marketFailed => "62444ba0-b2dd-4b8f-afee-c04f7b2ab6e4"

/-- The cron lock table: the set of lock row ids currently present. -/
structure CronTable where
  rows : List String
  deriving DecidableEq, Repr

/-- CronRepo.SaveCron via gorm Create on the primary key id: fails exactly
when a row with the same id already exists, otherwise inserts the row. -/
def createCron (id : String) (t : CronTable) : Option CronTable :=
  if id ∈ t.rows then none else some ⟨id :: t.rows⟩

/-- CronRepo.DeleteCron (Unscoped hard delete of the row by id). -/
def deleteCron (id : String) (t : CronTable) : CronTable :=
  ⟨t.rows.filter (fun r => r ≠ id)⟩

/-- What one handler invocation leaves behind: the lock table, the order
table, the orders that were read, and the per-order actions dispatched as
goroutines (not yet run when the handler returns). -/
structure TickResult where
  locks : CronTable
  store : List Order
  fetched : List Order
  dispatched : List Order

/-- One handler of NewCronService (for example handlePendingOrders): insert
the CronLock row with the fixed worker UUID; on conflict return immediately
without touching any order; otherwise fetch the source status, batch-write
the in-progress status, dispatch the per-order goroutines, and delete the
lock row — before the dispatched goroutines run. -/
def handleWorker (w : WorkerKind) (locks : CronTable) (store : List Order) : TickResult :=
  match createCron (cronId w) locks with
  | none => ⟨locks, store, [], []⟩
  | some locks1 =>
      let fetched := fetchByStatus (sourceStatus w) store
      let store1 := changeStatusByIds (fetched.map Order.id) (inProgressStatus w) store
      ⟨deleteCron (cronId w) locks1, store1, fetched, fetched⟩

/-! Order submission. -/

/-- Service.SubmitOrder of the order usecase: set status PENDING, snapshot
the mega-market id, its slippage percentage, and the token symbols derived
from `(megaMarket, isBuy)` — the (source, destination) pair for a buy and
the swapped pair for a sell — then persist. -/
def SubmitOrder (mkt : Market) (mega : MegaMarket) (o : Order) : Order :=
  { o with
      status := .pending
      megaMarketID := mkt.megaMarketID
      slipagePercentage := mega.slipagePercentage
      sourceTokenSymbol :=
        if o.isBuy then mega.sourceTokenSymbol else mega.destinationTokenSymbol
      destinationTokenSymbol :=
        if o.isBuy then mega.destinationTokenSymbol else mega.sourceTokenSymbol }

/-- Persistent state: the order table and the mega-market table. -/
structure SystemState where
  orders : List Order
  megaMarkets : List MegaMarket

/-- Persist a submitted order. -/
def saveOrder (st : SystemState) (o : Order) : SystemState :=
  { st with orders := st.orders ++ [o] }

/-- A later edit of a logical market: replace the row with the same id. -/
def updateMegaMarket (st : SystemState) (mm : MegaMarket) : SystemState :=
  { st with megaMarkets := st.megaMarkets.map (fun m => if m.id = mm.id then mm else m) }

/-! The GORM order repository. -/

/-- Repository row (repository `Order` model): gorm.Model fields plus the
persisted order columns. -/
structure OrderRecord where
  id : Nat
  createdAt : Nat
  updatedAt : Nat
  deletedAt : Option Nat
  status : String
  volume : ℚ
  fromNetwork : String
  toNetwork : String
  userAddress : String
  marketID : Nat
  megaMarketID : Nat
  isBuy : Bool
  contractAddress : String
  deadline : Int
  destinationAddress : Option String
  tokenAddress : String
  signature : Option String
  depositTxHash : Option String
  releaseTxHash : Option String
  userId : String
  destinationTokenSymbol : String
  slipagePercentage : ℚ
  price : ℚ
  sourceTokenSymbol : String
  deriving DecidableEq, Repr

/-- The Go zero value of the repository row struct. -/
def zeroOrderRecord : OrderRecord :=
  ⟨0, 0, 0, none, "", 0, "", "", "", 0, 0, false, "", 0, none, "", none, none, none,
    "", "", 0, 0, ""⟩

/-- GORM field write rule for `Updates(struct)`: a zero-valued field of the
update struct is skipped, a non-zero field is written. -/
def keepNonZero {α : Type} [DecidableEq α] (zero old new : α) : α :=
  if new = zero then old else new

/-- GORM `Updates(struct)` on one row: every non-zero field of the update
struct is written, zero-valued fields are skipped, and UpdatedAt is set by
GORM to the current time. -/
def gormUpdates (now : Nat) (row upd : OrderRecord) : OrderRecord where
  id := keepNonZero 0 row.id upd.id
  createdAt := keepNonZero 0 row.createdAt upd.createdAt
  updatedAt := now
  deletedAt := keepNonZero none row.deletedAt upd.deletedAt
  status := keepNonZero "" row.status upd.status
  volume := keepNonZero 0 row.volume upd.volume
  fromNetwork := keepNonZero "" row.fromNetwork upd.fromNetwork
  toNetwork := keepNonZero "" row.toNetwork upd.toNetwork
  userAddress := keepNonZero "" row.userAddress upd.userAddress
  marketID := keepNonZero 0 row.marketID upd.marketID
  megaMarketID := keepNonZero 0 row.megaMarketID upd.megaMarketID
  isBuy := keepNonZero false row.isBuy upd.isBuy
  contractAddress := keepNonZero "" row.contractAddress upd.contractAddress
  deadline := keepNonZero 0 row.deadline upd.deadline
  destinationAddress := keepNonZero none row.destinationAddress upd.destinationAddress
  tokenAddress := keepNonZero "" row.tokenAddress upd.tokenAddress
  signature := keepNonZero none row.signature upd.signature
  depositTxHash := keepNonZero none row.depositTxHash upd.depositTxHash
  releaseTxHash := keepNonZero none row.releaseTxHash upd.releaseTxHash
  userId := keepNonZero "" row.userId upd.userId
  destinationTokenSymbol := keepNonZero "" row.destinationTokenSymbol upd.destinationTokenSymbol
  slipagePercentage := keepNonZero 0 row.slipagePercentage upd.slipagePercentage
  price := keepNonZero 0 row.price upd.price
  sourceTokenSymbol := keepNonZero "" row.sourceTokenSymbol upd.sourceTokenSymbol

/-- OrderRepo.ChangeStatusByIds: `Updates(Order{Status: string(status)})` on
the rows whose id is in `ids` — a GORM struct update whose only non-zero
field is Status. -/
def ChangeStatusByIds (now : Nat) (table : List OrderRecord) (ids : List Nat)
    (status : OrderStatus) : List OrderRecord :=
  table.map (fun row =>
    if row.id ∈ ids then
      gormUpdates now row { zeroOrderRecord with status := statusString status }
    else row)

/-- Agreement of two rows on every column other than status and updatedAt. -/
def frameAgrees (a b : OrderRecord) : Prop :=
  b.id = a.id ∧ b.createdAt = a.createdAt ∧ b.deletedAt = a.deletedAt
    ∧ b.volume = a.volume ∧ b.fromNetwork = a.fromNetwork ∧ b.toNetwork = a.toNetwork
    ∧ b.userAddress = a.userAddress ∧ b.marketID = a.marketID
    ∧ b.megaMarketID = a.megaMarketID ∧ b.isBuy = a.isBuy
    ∧ b.contractAddress = a.contractAddress ∧ b.deadline = a.deadline
    ∧ b.destinationAddress = a.destinationAddress ∧ b.tokenAddress = a.tokenAddress
    ∧ b.signature = a.signature ∧ b.depositTxHash = a.depositTxHash
    ∧ b.releaseTxHash = a.releaseTxHash ∧ b.userId = a.userId
    ∧ b.destinationTokenSymbol = a.destinationTokenSymbol
    ∧ b.slipagePercentage = a.slipagePercentage ∧ b.price = a.price
    ∧ b.sourceTokenSymbol = a.sourceTokenSymbol

/-! Concrete fixtures used by witnesses and counterexamples. -/

/-- An environment in which every external call succeeds. -/
def envGood : Env :=
  ⟨fun _ => .mined 1, fun _ => .ok "exchange-ref", fun _ => some ⟨1⟩,
    fun _ => some 2, fun _ => some ⟨1⟩⟩

/-- A template order used by the concrete fixtures. -/
def baseOrder : Order :=
  ⟨1, .pending, 1, 1, 0, true, "0xUSER", some "0xDEST", "ETH", "USDT", 1, 1⟩

/-- An order stranded in MARKET_USER_ORDER_IN_PROGRESS. -/
def stuckOrder : Order := { baseOrder with status := .marketUserOrderInProgress }

/-- An order in MARKET_USER_ORDER_SUCCESS with no destination address. -/
def c7Order : Order :=
  { baseOrder with
      status := .marketUserOrderSuccess
      destinationAddress := none
      price := 250 }

/-- A first venue market (scenario S5). -/
def v1Ex : Market := ⟨1, "ETH-USDT", "ompfinex", 1⟩

/-- A second venue market (scenario S5). -/
def v2Ex : Market := ⟨2, "ETHUSDT", "wallex", 1⟩

/-- A logical market fixture. -/
def mmEx : MegaMarket := ⟨1, "ETH", "USDT", 1/50⟩

/-- Router quote outcomes of scenario S5: venue 1 quotes 105, venue 2
quotes 101. -/
def quotesEx : List (Market × Option ℚ) := [(v1Ex, some 105), (v2Ex, some 101)]

/-! Helper lemmas. -/

/-- No status constant is stored as the empty string. -/
theorem statusString_ne_empty (st : OrderStatus) : statusString st ≠ "" := by
  cases st <;> simp [statusString]

/-- Element lookup through the domain-level status update. -/
theorem changeStatusByIds_getElem? (ids : List Nat) (st : OrderStatus)
    (store : List Order) (i : Nat) :
    (changeStatusByIds ids st store)[i]? =
      (store[i]?).map (fun o => if o.id ∈ ids then { o with status := st } else o) := by
  simp [changeStatusByIds]

/-- A row whose id is touched by none of the dispatched tasks is unchanged
by running them. -/
theorem applyTasks_getElem?_of_notMem (w : WorkerKind) (env : Env)
    (fetched : List Order) (store : List Order) (i : Nat) (o : Order)
    (ho : store[i]? = some o) (hid : o.id ∉ fetched.map Order.id) :
    (applyTasks w env fetched store)[i]? = some o := by
  induction fetched generalizing store with
  | nil => simpa [applyTasks]
  | cons x rest ih =>
    simp only [List.map_cons, List.mem_cons] at hid
    push_neg at hid
    have hstep : (changeStatusByIds [x.id] (taskStatus w env x) store)[i]? = some o := by
      rw [changeStatusByIds_getElem?, ho]
      simp [hid.1]
    have : applyTasks w env (x :: rest) store =
        applyTasks w env rest (changeStatusByIds [x.id] (taskStatus w env x) store) := rfl
    rw [this]
    exact ih _ hstep hid.2

/-- Two rows of a table with no duplicate ids that share an id are equal. -/
theorem eq_of_id_eq_of_nodup (store : List Order)
    (hnd : (store.map Order.id).Nodup) (a b : Order) (ha : a ∈ store) (hb : b ∈ store)
    (hid : a.id = b.id) : a = b :=
  List.inj_on_of_nodup_map hnd ha hb hid

/-- A row whose status is not the fetched source status is not touched by a
worker tick. -/
theorem workerTick_preserves_nonsource (w : WorkerKind) (env : Env)
    (store : List Order) (hnd : (store.map Order.id).Nodup) (i : Nat) (o : Order)
    (ho : store[i]? = some o) (hs : o.status ≠ sourceStatus w) :
    (workerTick w env store)[i]? = some o := by
  have homem : o ∈ store := List.getElem?_mem ho
  have hidnot : o.id ∉ (fetchByStatus (sourceStatus w) store).map Order.id := by
    intro hmem
    obtain ⟨o2, ho2, hid⟩ := List.mem_map.mp hmem
    have ho2m : o2 ∈ store ∧ o2.status = sourceStatus w := by
      simpa [fetchByStatus, List.mem_filter] using ho2
    have : o2 = o := eq_of_id_eq_of_nodup store hnd o2 o ho2m.1 homem hid
    exact hs (this ▸ ho2m.2)
  have hbatch : (changeStatusByIds ((fetchByStatus (sourceStatus w) store).map Order.id)
      (inProgressStatus w) store)[i]? = some o := by
    rw [changeStatusByIds_getElem?, ho]
    rw [Option.map]
    rw [if_neg hidnot]
  exact applyTasks_getElem?_of_notMem w env _ _ i o hbatch hidnot

/-- The source status of every worker is in the source-status list. -/
theorem sourceStatus_mem (w : WorkerKind) : sourceStatus w ∈ workerSourceStatuses := by
  cases w <;> simp [sourceStatus, workerSourceStatuses]

/-! Claim theorems. -/

/-- Claim C1 — terminality of terminal statuses: an order whose status is
COMPLETED, FAILED_USER_DEBIT or REFUND_USER_ORDER_SUCCESS is not fetched by
any of the five worker functions and is left untouched (status included) by
any worker tick, whatever the external-call outcomes. -/
theorem terminal_statuses_stable (w : WorkerKind) (env : Env) (store : List Order)
    (hnd : (store.map Order.id).Nodup) (i : Nat) (o : Order)
    (ho : store[i]? = some o) (ht : o.status ∈ terminalStatuses) :
    (workerTick w env store)[i]? = some o
      ∧ o ∉ fetchByStatus (sourceStatus w) store := by
  have hs : o.status ≠ sourceStatus w := by
    simp only [terminalStatuses, List.mem_cons, List.not_mem_nil, or_false] at ht
    rcases ht with h | h | h <;> rw [h] <;> cases w <;> simp [sourceStatus]
  refine ⟨workerTick_preserves_nonsource w env store hnd i o ho hs, ?_⟩
  simp [fetchByStatus, List.mem_filter, hs]

/-- Witness for C1: a COMPLETED order survives a Pending-worker tick. -/
theorem terminal_statuses_stable_witness :
    (workerTick .pending envGood [{ baseOrder with status := .completed }])[0]? =
        some { baseOrder with status := .completed }
      ∧ { baseOrder with status := .completed }
          ∉ fetchByStatus (sourceStatus .pending) [{ baseOrder with status := .completed }] :=
  terminal_statuses_stable .pending envGood [{ baseOrder with status := .completed }]
    (by simp) 0 { baseOrder with status := .completed } rfl (by simp [terminalStatuses])

/-- Claim C2 — slippage decision in the MARKET_USER_ORDER_FAILED worker:
with a re-quoted price pp, the order is sent to USER_DEBIT_SUCCESS
(re-hedge) iff pp ≤ p * (1 + s), and to REFUND_USER_ORDER iff
pp > p * (1 + s), where p is the snapshotted price and s the snapshotted
slippage of the order. -/
theorem slippage_decision (o : Order) (pp : ℚ) :
    (fetchMarketFailedTask (some pp) o = .userDebitSuccess
        ↔ pp ≤ o.price * (1 + o.slipagePercentage))
    ∧ (fetchMarketFailedTask (some pp) o = .refundUserOrder
        ↔ o.price * (1 + o.slipagePercentage) < pp) := by
  have hq : o.price + o.price * o.slipagePercentage
      = o.price * (1 + o.slipagePercentage) := by ring
  unfold fetchMarketFailedTask
  rw [hq]
  by_cases h : o.price * (1 + o.slipagePercentage) < pp
  · simp [h, not_le.mpr h]
  · simp [h, not_lt.mp h]

/-- Claim C3 — the wallex price calculation of market/usecase/service.go
diverges from the claimed per-venue VWAP on a buy: on the book with asks
[(price 1, qty 1), (price 3, qty 1)] and requested volume 2 the code
returns 3/2 (it fills until the accumulated COST reaches the requested
volume, treating it as a quote-currency budget), while the volume walk the
claim describes returns 2. -/
theorem wallexSvc_buy_diverges_from_vwap :
    calculateWallexPriceSvc c3Book 2 true = .ok (3/2)
      ∧ vwapSpec [(1, 1), (3, 1)] 2 = some 2
      ∧ ((3 : ℚ)/2 ≠ 2)
      ∧ calculateWallexPrice c3Book 2 true = .ok 2 := by
  refine ⟨?_, ?_, by norm_num, ?_⟩
  · norm_num [calculateWallexPriceSvc, wallexSvcBuyWalk, c3Book, min_def]
  · norm_num [vwapSpec, vwapSpecWalk, min_def]
  · norm_num [calculateWallexPrice, wallexWalk, c3Book, min_def]

/-- Claim C6 — debit outcome: ExecuteTradeWithPermit reports success iff
the transaction is mined with receipt status 1; the Pending worker task
then writes USER_DEBIT_SUCCESS exactly in that case, and writes
FAILED_USER_DEBIT on a chain error or a receipt with another status. -/
theorem debit_outcome (r : ChainResult) :
    ((∃ rec, ExecuteTradeWithPermit r = .ok rec) ↔ r = .mined 1)
    ∧ (fetchPendingTask r = .userDebitSuccess ↔ r = .mined 1)
    ∧ (r ≠ .mined 1 → fetchPendingTask r = .failedUserDebit) := by
  cases r with
  | failedBeforeReceipt => simp [ExecuteTradeWithPermit, fetchPendingTask]
  | mined st =>
    by_cases h : st = 1 <;>
      simp [ExecuteTradeWithPermit, fetchPendingTask, h]

/-- Witness for C6: a failed chain call leaves the order FAILED_USER_DEBIT. -/
theorem debit_outcome_witness :
    fetchPendingTask ChainResult.failedBeforeReceipt = OrderStatus.failedUserDebit :=
  (debit_outcome ChainResult.failedBeforeReceipt).2.2 (by simp)

/-- Claim C7, counterexample — the claim says the credit falls back to the
user address when destinationAddress is absent, but the code dereferences
order.DestinationAddress unconditionally: on an order with no destination
address no WithdrawTreasury parameters are formed at all (the goroutine
panics on the nil pointer), in particular no transfer to the user address. -/
theorem credit_no_fallback_counterexample :
    c7Order.destinationAddress = none
      ∧ c7Order.userAddress = "0xUSER"
      ∧ creditParams c7Order = none :=
  ⟨rfl, rfl, rfl⟩

/-- Claim C7, amended — the treasury credit of the MARKET_USER_ORDER_SUCCESS
worker transfers order.price units of destinationTokenSymbol to the
unconditionally dereferenced order.destinationAddress; when the destination
address is absent no call is made (nil-pointer panic), with no fallback to
the user address. -/
theorem credit_recipient_amount (o : Order) :
    (∀ a, o.destinationAddress = some a →
        creditParams o = some ⟨a, o.price, o.destinationTokenSymbol⟩)
    ∧ (o.destinationAddress = none → creditParams o = none) := by
  constructor
  · intro a ha
    simp [creditParams, ha]
  · intro ha
    simp [creditParams, ha]

/-- Witness for C7 (amended): an order with a destination address yields
exactly that recipient with amount order.price of the destination token. -/
theorem credit_recipient_amount_witness :
    creditParams baseOrder = some ⟨"0xDEST", baseOrder.price, "USDT"⟩ :=
  (credit_recipient_amount baseOrder).1 "0xDEST" rfl

/-- Claim C8 — submission snapshot: SubmitOrder sets status PENDING,
persists the logical market id and its slippage percentage, derives the
token symbols from (megaMarket, isBuy) — the (source, destination) pair for
a buy, the swapped pair for a sell — and a later edit of the mega-market
table leaves the stored orders unchanged. -/
theorem submit_snapshot (mkt : Market) (mega : MegaMarket) (o : Order)
    (st : SystemState) (mm2 : MegaMarket) :
    (SubmitOrder mkt mega o).status = .pending
    ∧ (SubmitOrder mkt mega o).megaMarketID = mkt.megaMarketID
    ∧ (SubmitOrder mkt mega o).slipagePercentage = mega.slipagePercentage
    ∧ (SubmitOrder mkt mega o).sourceTokenSymbol =
        (if o.isBuy then mega.sourceTokenSymbol else mega.destinationTokenSymbol)
    ∧ (SubmitOrder mkt mega o).destinationTokenSymbol =
        (if o.isBuy then mega.destinationTokenSymbol else mega.sourceTokenSymbol)
    ∧ (updateMegaMarket (saveOrder st (SubmitOrder mkt mega o)) mm2).orders =
        st.orders ++ [SubmitOrder mkt mega o] :=
  ⟨rfl, rfl, rfl, rfl, rfl, rfl⟩

/-- The running best of the lowest-price fold only decreases. -/
theorem foldl_bestStep_fst_le (rs : List (ℚ × Market)) :
    ∀ r : ℚ × Market, (rs.foldl bestStep r).1 ≤ r.1 := by
  induction rs with
  | nil => intro r; exact le_refl _
  | cons x xs ih =>
    intro r
    have hstep : (x :: xs).foldl bestStep r = xs.foldl bestStep (bestStep r x) := rfl
    rw [hstep]
    refine le_trans (ih (bestStep r x)) ?_
    by_cases hx : x.1 < r.1
    · simpa [bestStep, hx] using le_of_lt hx
    · simp [bestStep, hx]

/-- The lowest-price fold picks the first occurrence of the minimal price:
the input splits around the result with strictly greater prices before it
and no smaller price after it. -/
theorem foldl_bestStep_split (rs : List (ℚ × Market)) :
    ∀ r : ℚ × Market, ∃ l₁ l₂,
      r :: rs = l₁ ++ (rs.foldl bestStep r) :: l₂
      ∧ (∀ x ∈ l₁, (rs.foldl bestStep r).1 < x.1)
      ∧ (∀ x ∈ l₂, (rs.foldl bestStep r).1 ≤ x.1) := by
  induction rs with
  | nil =>
    intro r
    exact ⟨[], [], rfl, by simp, by simp⟩
  | cons x xs ih =>
    intro r
    have hstep : (x :: xs).foldl bestStep r = xs.foldl bestStep (bestStep r x) := rfl
    obtain ⟨l₁, l₂, hsplit, hlt, hle⟩ := ih (bestStep r x)
    by_cases hx : x.1 < r.1
    · have hb : bestStep r x = x := if_pos hx
      rw [hb] at hsplit hlt hle
      have hbr : (xs.foldl bestStep x).1 < r.1 :=
        lt_of_le_of_lt (foldl_bestStep_fst_le xs x) hx
      refine ⟨r :: l₁, l₂, ?_, ?_, ?_⟩
      · rw [hstep, hb]
        calc r :: x :: xs = r :: (l₁ ++ (xs.foldl bestStep x) :: l₂) := by rw [← hsplit]
          _ = (r :: l₁) ++ (xs.foldl bestStep x) :: l₂ := rfl
      · intro y hy
        rw [hstep, hb]
        rcases List.mem_cons.mp hy with h | h
        · rw [h]; exact hbr
        · exact hlt y h
      · intro y hy
        rw [hstep, hb]
        exact hle y hy
    · have hb : bestStep r x = r := if_neg hx
      rw [hb] at hsplit hlt hle
      have hxr : r.1 ≤ x.1 := not_lt.mp hx
      cases l₁ with
      | nil =>
        rw [List.nil_append] at hsplit
        injection hsplit with hbeq hl2
        refine ⟨[], x :: xs, ?_, by simp, ?_⟩
        · rw [hstep, hb, List.nil_append, ← hbeq]
        · intro y hy
          rw [hstep, hb, ← hbeq]
          rcases List.mem_cons.mp hy with h | h
          · rw [h]; exact hxr
          · rw [hbeq]
            exact hle y (hl2 ▸ h)
      | cons z l₁t =>
        rw [List.cons_append] at hsplit
        injection hsplit with hz hxs
        have hbz : (xs.foldl bestStep r).1 < r.1 := by
          have := hlt z (List.mem_cons_self z l₁t)
          rwa [← hz] at this
        refine ⟨r :: x :: l₁t, l₂, ?_, ?_, ?_⟩
        · rw [hstep, hb]
          calc r :: x :: xs = r :: x :: (l₁t ++ (xs.foldl bestStep r) :: l₂) := by rw [← hxs]
            _ = (r :: x :: l₁t) ++ (xs.foldl bestStep r) :: l₂ := rfl
        · intro y hy
          rw [hstep, hb]
          rcases List.mem_cons.mp hy with h | h
          · rw [h]; exact hbz
          · rcases List.mem_cons.mp h with h2 | h2
            · rw [h2]; exact lt_of_lt_of_le hbz hxr
            · exact hlt y (List.mem_cons_of_mem z h2)
        · intro y hy
          rw [hstep, hb]
          exact hle y hy

/-- Claim C4 — router venue selection: with the logical market found, the
route returns an error iff no venue yielded a price; a successful route
returns the looked-up logical market together with a quote that is minimal
among the per-venue results, keeping the first observed result on ties
(every earlier result is strictly more expensive, no later result is
cheaper); and a venue whose depth fetch or price computation failed is
skipped without affecting the route. -/
theorem route_best_selection (mm : MegaMarket) (quotes : List (Market × Option ℚ)) :
    ((∃ e, GetBestExchangePriceByVolume (some mm) quotes = .error e)
        ↔ routeResults quotes = [])
    ∧ (∀ p mkt mg,
        GetBestExchangePriceByVolume (some mm) quotes = .ok (p, mkt, mg) →
          mg = mm ∧ ∃ l₁ l₂,
            routeResults quotes = l₁ ++ (p, mkt) :: l₂
            ∧ (∀ x ∈ l₁, p < x.1) ∧ (∀ x ∈ l₂, p ≤ x.1))
    ∧ (∀ (m : Market) (pre post : List (Market × Option ℚ)),
        GetBestExchangePriceByVolume (some mm) (pre ++ (m, (none : Option ℚ)) :: post)
          = GetBestExchangePriceByVolume (some mm) (pre ++ post)) := by
  refine ⟨?_, ?_, ?_⟩
  · cases hr : routeResults quotes with
    | nil => simp [GetBestExchangePriceByVolume, hr, selectBest]
    | cons a as => simp [GetBestExchangePriceByVolume, hr, selectBest]
  · intro p mkt mg hok
    cases hr : routeResults quotes with
    | nil =>
      rw [GetBestExchangePriceByVolume, hr] at hok
      simp [selectBest] at hok
    | cons a as =>
      rw [GetBestExchangePriceByVolume, hr] at hok
      simp only [selectBest, Except.ok.injEq, Prod.mk.injEq] at hok
      obtain ⟨hp, hmkt, hmg⟩ := hok
      obtain ⟨l₁, l₂, hsplit, hlt, hle⟩ := foldl_bestStep_split as a
      have hbest : (p, mkt) = as.foldl bestStep a := by
        rw [← hp, ← hmkt]
      refine ⟨hmg.symm, l₁, l₂, ?_, ?_, ?_⟩
      · rw [hbest]
        exact hsplit
      · intro y hy
        have := hlt y hy
        rw [← hbest] at this
        exact this
      · intro y hy
        have := hle y hy
        rw [← hbest] at this
        exact this
  · intro m pre post
    have hroute : routeResults (pre ++ (m, (none : Option ℚ)) :: post)
        = routeResults (pre ++ post) := by
      simp [routeResults]
    rw [GetBestExchangePriceByVolume, GetBestExchangePriceByVolume, hroute]

/-- Witness for C4, scenario S5: quotes 105 and 101 route to the second
venue at 101, which is the first minimal result. -/
theorem route_best_selection_witness :
    mmEx = mmEx ∧ ∃ l₁ l₂,
      routeResults quotesEx = l₁ ++ ((101 : ℚ), v2Ex) :: l₂
      ∧ (∀ x ∈ l₁, (101 : ℚ) < x.1) ∧ (∀ x ∈ l₂, (101 : ℚ) ≤ x.1) :=
  (route_best_selection mmEx quotesEx).2.1 101 v2Ex mmEx (by
    have hq : routeResults quotesEx = [(105, v1Ex), (101, v2Ex)] := rfl
    simp only [GetBestExchangePriceByVolume, hq, selectBest, List.foldl]
    norm_num [bestStep])

/-- Claim C5 — worker tick protocol: a handler whose CronLock insert
conflicts aborts the tick reading and transitioning nothing; otherwise it
fetches exactly the orders in the source status, batch-writes the
in-progress status to the fetched ids before any per-order action runs,
dispatches one task per fetched order, and deletes the lock row on return —
while the dispatched tasks are still pending; running the dispatched tasks
afterwards completes the worker tick. -/
theorem worker_tick_protocol (w : WorkerKind) (locks : CronTable) (store : List Order) :
    (cronId w ∈ locks.rows →
        handleWorker w locks store = ⟨locks, store, [], []⟩)
    ∧ (cronId w ∉ locks.rows →
        (handleWorker w locks store).fetched = fetchByStatus (sourceStatus w) store
        ∧ (handleWorker w locks store).store =
            changeStatusByIds ((fetchByStatus (sourceStatus w) store).map Order.id)
              (inProgressStatus w) store
        ∧ (handleWorker w locks store).dispatched = (handleWorker w locks store).fetched
        ∧ (handleWorker w locks store).locks = locks
        ∧ (∀ env, applyTasks w env (handleWorker w locks store).dispatched
              (handleWorker w locks store).store = workerTick w env store)) := by
  obtain ⟨rows⟩ := locks
  constructor
  · intro hmem
    simp only [handleWorker, createCron, if_pos hmem]
  · intro hnot
    have hall : ∀ a ∈ rows, ¬ a = cronId w := fun a ha he => hnot (he ▸ ha)
    have hdel : deleteCron (cronId w) ⟨cronId w :: rows⟩ = ⟨rows⟩ := by
      simp only [deleteCron, List.filter_cons]
      simp
      exact hall
    have hstep : handleWorker w ⟨rows⟩ store =
        ⟨⟨rows⟩,
          changeStatusByIds ((fetchByStatus (sourceStatus w) store).map Order.id)
            (inProgressStatus w) store,
          fetchByStatus (sourceStatus w) store,
          fetchByStatus (sourceStatus w) store⟩ := by
      simp only [handleWorker, createCron, if_neg hnot]
      rw [hdel]
    rw [hstep]
    exact ⟨rfl, rfl, rfl, rfl, fun env => rfl⟩

/-- Witness for C5: with the pending lock present the pending handler
aborts untouched; with an empty lock table it runs and releases the lock. -/
theorem worker_tick_protocol_witness :
    handleWorker .pending ⟨[cronId .pending]⟩ [baseOrder] =
        ⟨⟨[cronId .pending]⟩, [baseOrder], [], []⟩
      ∧ (handleWorker .pending ⟨([] : List String)⟩ [baseOrder]).locks
          = (⟨([] : List String)⟩ : CronTable) :=
  ⟨(worker_tick_protocol .pending ⟨[cronId .pending]⟩ [baseOrder]).1 (by simp),
    ((worker_tick_protocol .pending ⟨([] : List String)⟩ [baseOrder]).2
      (by simp)).2.2.2.1⟩

/-- Claim C9, counterexample — an order stranded in
MARKET_USER_ORDER_IN_PROGRESS is advanced by no later worker tick: every
one of the five workers, under every outcome environment, leaves the store
unchanged. -/
theorem in_progress_never_advanced_by_tick :
    (∀ env, workerTick .pending env [stuckOrder] = [stuckOrder])
    ∧ (∀ env, workerTick .successDebit env [stuckOrder] = [stuckOrder])
    ∧ (∀ env, workerTick .marketSuccess env [stuckOrder] = [stuckOrder])
    ∧ (∀ env, workerTick .marketFailed env [stuckOrder] = [stuckOrder])
    ∧ (∀ env, workerTick .refundUser env [stuckOrder] = [stuckOrder]) :=
  ⟨fun _ => rfl, fun _ => rfl, fun _ => rfl, fun _ => rfl, fun _ => rfl⟩

/-- Claim C9, amended — the statuses a later worker tick can advance are
exactly the five fetched source statuses PENDING, USER_DEBIT_SUCCESS,
MARKET_USER_ORDER_SUCCESS, MARKET_USER_ORDER_FAILED and REFUND_USER_ORDER;
every other status — the three terminal ones and also every
*_IN_PROGRESS status (and REFUND_USER_ORDER_FAILED) — is left untouched by
every worker tick, so only the in-flight task of the tick that moved an
order into an in-progress status can ever move it on. -/
theorem transient_statuses :
    (∀ w : WorkerKind, ∃ (env : Env) (store : List Order) (o o2 : Order),
        (store.map Order.id).Nodup ∧ store[0]? = some o
          ∧ o.status = sourceStatus w
          ∧ (workerTick w env store)[0]? = some o2 ∧ o2.status ≠ o.status)
    ∧ (∀ (w : WorkerKind) (env : Env) (store : List Order),
        (store.map Order.id).Nodup → ∀ (i : Nat) (o : Order), store[i]? = some o →
          o.status ∉ workerSourceStatuses → (workerTick w env store)[i]? = some o) := by
  constructor
  · intro w
    cases w
    case pending =>
      exact ⟨envGood, [baseOrder], baseOrder,
        { baseOrder with status := .userDebitSuccess },
        by simp, rfl, rfl, rfl, by decide⟩
    case successDebit =>
      exact ⟨envGood, [{ baseOrder with status := .userDebitSuccess }],
        { baseOrder with status := .userDebitSuccess },
        { baseOrder with status := .marketUserOrderSuccess },
        by simp, rfl, rfl, rfl, by decide⟩
    case marketSuccess =>
      exact ⟨envGood, [{ baseOrder with status := .marketUserOrderSuccess }],
        { baseOrder with status := .marketUserOrderSuccess },
        { baseOrder with status := .completed },
        by simp, rfl, rfl, rfl, by decide⟩
    case marketFailed =>
      exact ⟨{ envGood with quote := fun _ => none },
        [{ baseOrder with status := .marketUserOrderFailed }],
        { baseOrder with status := .marketUserOrderFailed },
        { baseOrder with status := .marketUserOrderInProgress },
        by simp, rfl, rfl, rfl, by decide⟩
    case refundUser =>
      exact ⟨envGood, [{ baseOrder with status := .refundUserOrder }],
        { baseOrder with status := .refundUserOrder },
        { baseOrder with status := .refundUserOrderSuccess },
        by simp, rfl, rfl, rfl, by decide⟩
  · intro w env store hnd i o ho hns
    exact workerTick_preserves_nonsource w env store hnd i o ho
      (fun h => hns (h ▸ sourceStatus_mem w))

/-- Witness for C9 (amended): an order in TREASURY_CREDIT_IN_PROGRESS
survives a Pending-worker tick unchanged. -/
theorem transient_statuses_witness :
    (workerTick .pending envGood
        [{ baseOrder with status := .treasuryCreditInProgress }])[0]? =
      some { baseOrder with status := .treasuryCreditInProgress } :=
  transient_statuses.2 .pending envGood
    [{ baseOrder with status := .treasuryCreditInProgress }] (by simp) 0
    { baseOrder with status := .treasuryCreditInProgress } rfl (by decide)

/-- Claim C10 — frame property of the repository status update:
ChangeStatusByIds leaves every column other than status and updatedAt of
every row unchanged, rewrites status and updatedAt only on the rows whose
id is selected, and leaves unselected rows entirely unchanged. -/
theorem ChangeStatusByIds_frame (now : Nat) (table : List OrderRecord)
    (ids : List Nat) (st : OrderStatus) :
    List.Forall₂
      (fun a b => frameAgrees a b
        ∧ (a.id ∉ ids → b = a)
        ∧ (a.id ∈ ids → b.status = statusString st ∧ b.updatedAt = now))
      table (ChangeStatusByIds now table ids st) := by
  rw [ChangeStatusByIds, List.forall₂_map_right_iff]
  refine List.forall₂_same.mpr (fun row hrow => ?_)
  by_cases h : row.id ∈ ids
  · refine ⟨?_, fun hc => absurd h hc, fun _ => ?_⟩
    · simp [h, gormUpdates, keepNonZero, frameAgrees, zeroOrderRecord]
    · simp [h, gormUpdates, keepNonZero, zeroOrderRecord, statusString_ne_empty st]
  · simp [h, frameAgrees]

end Mega
